import Mathlib

/-!
Verification of the rule-based LP model layer (`src/modelDefinition.py`,
class `RuleBasedModel`) against its specification.

The Python class is shallowly embedded as pure Lean functions over an
explicit `ModelState`.  Python dictionaries (which preserve insertion
order and overwrite on repeated keys) are embedded as association lists
with an insert-or-overwrite operation `dictInsert`.  The external PuLP
library objects that the class mutates are embedded as fields of
`ModelState`:

* `self.variables` (a Python dict name -> `pulp.LpVariable`) becomes
  `varsDict : Registry`;
* `self.model.objective` (set by `self.model += <LpAffineExpression>`;
  PuLP's `LpProblem.__iadd__` *overwrites* `self.objective` with the new
  expression, warning "Overwriting previously set objective.") becomes
  `objective : Option (List (String × PyVal))`;
* the ordered constraint collection of the `LpProblem` becomes
  `constraintsL : List Constr`;
* `self.model.status` (PuLP codes: 0 = NotSolved, 1 = Optimal,
  -1 = Infeasible, -2 = Unbounded, -3 = Undefined) becomes `status : Int`;
* the `varValue` slots of the PuLP variables (all `None` until a solve
  assigns them) become `varValues : List (String × ℚ)` with absence
  standing for Python `None`;
* `self.objective_value` becomes `objective_value : Option ℚ`.

Python numeric scalars are embedded with `PyVal` (`bool` is a subclass of
`int` in Python, so `isinstance(x, (int, float))` is true of booleans; we
use ℚ for floats, which is exact for every value the claims touch).  The
external solver call `self.model.solve()` is an input `SolverOutcome`:
`ok status vals` stands for a run of the engine that terminates and
in-place assigns the status code and the variable values, `fault` stands
for the engine raising an exception before mutating anything.  A method
body that Python exits via `return False` / `return True` / falling off
the end (`None`) reports `Ret.pyFalse` / `Ret.pyTrue` / `Ret.pyNone`.
-/

namespace RuleBasedModel

/-- Embedded Python scalar values (`None`, `bool`, `int`, `float`, `str`).
`float` is carried as an exact rational. -/
inductive PyVal where
  | none
  | bool (b : Bool)
  | int (n : Int)
  | float (q : ℚ)
  | str (s : String)
deriving DecidableEq, Repr

/-- The value a method returns to its caller: Python `None`, `False` or
`True`. -/
inductive Ret where
  | pyNone
  | pyFalse
  | pyTrue
deriving DecidableEq, Repr

/-- Python's `isinstance(v, (int, float))` — true for `bool` as well, because
Python's `bool` is a subclass of `int` (modelDefinition.py line 140). -/
def isNumeric : PyVal → Bool
  | .bool _ => true
  | .int _ => true
  | .float _ => true
  | _ => false

/-- The numeric value of a Python scalar as used by PuLP arithmetic
(`True` counts as 1, `False` as 0). -/
def pyToRat : PyVal → ℚ
  | .bool b => if b then 1 else 0
  | .int n => (n : ℚ)
  | .float q => q
  | _ => 0

/-- Python `==` between a scalar and an `int` constant: numeric values
compare by value across `bool`/`int`/`float`; other types are unequal. -/
def pyEqInt (v : PyVal) (n : Int) : Bool :=
  match v with
  | .bool b => (if b then (1 : Int) else 0) == n
  | .int m => m == n
  | .float q => q == (n : ℚ)
  | _ => false

/-- A `pulp.LpVariable` as created on modelDefinition.py line 83:
`pulp.LpVariable(var, lowBound=low, upBound=up, cat=cat)`. -/
structure LpVar where
  name : String
  lowBound : PyVal
  upBound : PyVal
  cat : PyVal
deriving DecidableEq, Repr

/-- The registry `self.variables`: a Python dict from names to variables
(association list, insertion order, unique keys maintained by
`dictInsert`). -/
abbrev Registry := List (String × LpVar)

/-- Lookup in a Python dict embedded as an association list. -/
def dictLookup {β : Type} (d : List (String × β)) (k : String) : Option β :=
  match d with
  | [] => Option.none
  | (k₁, v) :: rest => if k₁ = k then some v else dictLookup rest k

/-- Python `k in d` membership test. -/
def dictContains {β : Type} (d : List (String × β)) (k : String) : Bool :=
  (dictLookup d k).isSome

/-- Python `d[k] = v`: overwrite in place if the key is present (keeping
its position), otherwise append at the end. -/
def dictInsert {β : Type} (d : List (String × β)) (k : String) (v : β) :
    List (String × β) :=
  match d with
  | [] => [(k, v)]
  | (k₁, v₁) :: rest =>
      if k₁ = k then (k, v) :: rest else (k₁, v₁) :: dictInsert rest k v

/-- The key list of an embedded dict. -/
def dictKeys {β : Type} (d : List (String × β)) : List String :=
  d.map Prod.fst

/-- A value of the input dict of `define_vars`: either a tuple (of any
length) of scalars, or some non-tuple object. -/
inductive DVal where
  | tuple (xs : List PyVal)
  | other (v : PyVal)
deriving DecidableEq, Repr

/-- The check-and-destructure of modelDefinition.py lines 79–82:
`isinstance(bounds, tuple) and len(bounds) == 3`, then
`low, up, cat = bounds`.  `none` is the failing case. -/
def parseBounds : DVal → Option (PyVal × PyVal × PyVal)
  | .tuple [l, u, c] => some (l, u, c)
  | _ => Option.none

/-- The argument of `define_vars`: either a Python dict or some non-dict
object (modelDefinition.py line 74 checks `isinstance(var_dict, dict)`). -/
inductive VarDictArg where
  | notDict
  | dict (entries : List (String × DVal))
deriving DecidableEq, Repr

/-- The loop of modelDefinition.py lines 78–85: entries are processed in
order; each well-formed triple is written into the registry
immediately, and the first malformed entry aborts with `return False`
(entries already written stay).  Falling off the loop returns `None`. -/
def defineLoop (vars : Registry) : List (String × DVal) → Registry × Ret
  | [] => (vars, Ret.pyNone)
  | (name, dv) :: rest =>
      match parseBounds dv with
      | Option.none => (vars, Ret.pyFalse)
      | some (l, u, c) =>
          defineLoop (dictInsert vars name ⟨name, l, u, c⟩) rest

/-- The registry produced by applying every well-formed entry of a list
in order (used to state what `defineLoop` has written when it aborts). -/
def applyEntries (vars : Registry) (entries : List (String × DVal)) : Registry :=
  entries.foldl
    (fun r p =>
      match parseBounds p.2 with
      | some (l, u, c) => dictInsert r p.1 ⟨p.1, l, u, c⟩
      | Option.none => r)
    vars

/-- A constraint as stored in the PuLP problem by modelDefinition.py
lines 144–149: the left-hand linear expression (name -> coefficient, in
dict order), the relational sense (PuLP codes `LpConstraintLE = -1`,
`LpConstraintEQ = 0`, `LpConstraintGE = 1`), and the numeric value of the
right-hand side (a `bool` rhs is coerced by the arithmetic to 1 or 0). -/
structure Constr where
  lhs : List (String × PyVal)
  sense : Int
  rhs : ℚ
deriving DecidableEq, Repr

/-- The overall model state mutated by the `RuleBasedModel` methods.
(`varsDict` embeds the Python attribute `self.variables`; `variables` is
a reserved word in Lean.) -/
structure ModelState where
  varsDict : Registry
  objective : Option (List (String × PyVal))
  constraintsL : List Constr
  status : Int
  varValues : List (String × ℚ)
  objective_value : Option ℚ
deriving DecidableEq, Repr

/-- The state right after `__init__` (modelDefinition.py lines 36–38):
fresh `LpProblem` (no objective, no constraints, status `NotSolved` = 0),
empty variable dict, `objective_value = None`. -/
def initialModel : ModelState :=
  { varsDict := []
    objective := Option.none
    constraintsL := []
    status := 0
    varValues := []
    objective_value := Option.none }

/-- Method `define_vars` (modelDefinition.py lines 59–85). -/
def define_vars (st : ModelState) : VarDictArg → ModelState × Ret
  | .notDict => (st, Ret.pyFalse)
  | .dict entries =>
      let r := defineLoop st.varsDict entries
      ({ st with varsDict := r.1 }, r.2)

/-- The argument of `set_objective`: a Python dict of coefficients or a
non-dict object. -/
inductive ObjArg where
  | notDict
  | dict (coeffs : List (String × PyVal))
deriving DecidableEq, Repr

/-- Method `set_objective` (modelDefinition.py lines 87–105).  After the type
check and the per-key registry check, line 104 does
`self.model += pulp.lpSum([...])`; PuLP's `LpProblem.__iadd__` with an
`LpAffineExpression` overwrites `self.objective`, so the embedded state
replaces the objective.  A validation failure leaves the state
untouched and returns `False`; success falls off the end (`None`). -/
def set_objective (st : ModelState) : ObjArg → ModelState × Ret
  | .notDict => (st, Ret.pyFalse)
  | .dict coeffs =>
      if coeffs.all (fun p => dictContains st.varsDict p.1) then
        ({ st with objective := some coeffs }, Ret.pyNone)
      else (st, Ret.pyFalse)

/-- Default-valued lookup into a value assignment. -/
def lookupD (vals : List (String × ℚ)) (k : String) (d : ℚ) : ℚ :=
  (dictLookup vals k).getD d

/-- The value of a linear expression Σ coefficient × variable under an
assignment of the variables (PuLP's `value`); an unassigned variable
contributes its placeholder 0 here only under total assignments. -/
def evalExpr (e : List (String × PyVal)) (vals : List (String × ℚ)) : ℚ :=
  e.foldl (fun acc p => acc + pyToRat p.2 * lookupD vals p.1 0) 0

/-- The first component of a constraint tuple: a Python dict (the
expression) or a non-dict object (line 127 checks `isinstance(..., dict)`). -/
inductive CExprArg where
  | notDict
  | dict (entries : List (String × PyVal))
deriving DecidableEq, Repr

/-- One element of the `add_constraints` batch: a 3-tuple
`(constraint_expr, sense, rhs)` or anything failing the
`isinstance(constraint, tuple) and len(constraint) == 3` check of
lines 121–123. -/
inductive CItem where
  | notTuple3
  | tuple (expr : CExprArg) (sense : PyVal) (rhs : PyVal)
deriving DecidableEq, Repr

/-- The argument of `add_constraints`: a Python list or not
(line 115 checks `isinstance(constraints, list)`). -/
inductive CArg where
  | notList
  | list (items : List CItem)
deriving DecidableEq, Repr

/-- Membership test `sense in [LpConstraintLE, LpConstraintGE, LpConstraintEQ]`
(line 136), i.e. Python `==` against -1, 1 or 0. -/
def senseMember (sense : PyVal) : Bool :=
  pyEqInt sense (-1) || pyEqInt sense 1 || pyEqInt sense 0

/-- The three-way `if/elif/elif` of lines 144–149 that appends the
constraint; no branch matches (`none`) only when `senseMember` failed,
in which case the source appends nothing. -/
def mkConstr (entries : List (String × PyVal)) (sense rhs : PyVal) :
    Option Constr :=
  if pyEqInt sense (-1) then some ⟨entries, -1, pyToRat rhs⟩
  else if pyEqInt sense 1 then some ⟨entries, 1, pyToRat rhs⟩
  else if pyEqInt sense 0 then some ⟨entries, 0, pyToRat rhs⟩
  else Option.none

/-- The per-item validation of lines 121–142, in source order: tuple
arity, expression is a dict, every expression key is a registered
variable, sense is one of the three PuLP codes, rhs is numeric.  The
outer `none` is `return False`; `some o` passes validation and appends
the constraints in `o` (always `some c` here, since `mkConstr` fails
exactly when `senseMember` does).  An empty expression dict passes every
check. -/
def checkItem (vars : Registry) : CItem → Option (Option Constr)
  | .notTuple3 => Option.none
  | .tuple e sense rhs =>
      match e with
      | .notDict => Option.none
      | .dict entries =>
          if entries.all (fun p => dictContains vars p.1) then
            if senseMember sense then
              if isNumeric rhs then some (mkConstr entries sense rhs)
              else Option.none
            else Option.none
          else Option.none

/-- The loop of lines 120–152: items are validated and appended one at a
time; the first invalid item aborts with `return False`, keeping the
constraints appended for the items before it; an exhausted loop returns
`True`.  (The surrounding `try/except KeyError` of lines 119 and 153 is
dead: every registry access is guarded by the membership check.) -/
def addLoop (vars : Registry) : List Constr → List CItem → List Constr × Ret
  | cs, [] => (cs, Ret.pyTrue)
  | cs, item :: rest =>
      match checkItem vars item with
      | Option.none => (cs, Ret.pyFalse)
      | some Option.none => addLoop vars cs rest
      | some (some c) => addLoop vars (cs ++ [c]) rest

/-- The constraint list produced by appending every validated item of a
list (used to state what `addLoop` has appended when it aborts). -/
def appendChecked (vars : Registry) (cs : List Constr) (items : List CItem) :
    List Constr :=
  items.foldl
    (fun acc i =>
      match checkItem vars i with
      | some (some c) => acc ++ [c]
      | _ => acc)
    cs

/-- Method `add_constraints` (modelDefinition.py lines 107–155). -/
def add_constraints (st : ModelState) : CArg → ModelState × Ret
  | .notList => (st, Ret.pyFalse)
  | .list items =>
      let r := addLoop st.varsDict st.constraintsL items
      ({ st with constraintsL := r.1 }, r.2)

/-- What the external engine call `self.model.solve()` does: either it
terminates, in-place setting the PuLP status code and the variables'
values, or it raises before mutating anything. -/
inductive SolverOutcome where
  | ok (status : Int) (vals : List (String × ℚ))
  | fault
deriving DecidableEq, Repr

/-- Method `solve` (modelDefinition.py lines 158–175).  The body runs inside
`try/except Exception`, so the method always returns normally, and a
Python method without a `return` yields `None` in every case.  On
`fault`, line 171 raises and nothing was assigned.  On `ok`, line 172
computes `pulp.value(self.model.objective)`; when the objective is still
`None` this raises `AttributeError` (`None.value()`), which the same
`except` swallows after the status and values were already written. -/
def solve (st : ModelState) (out : SolverOutcome) : ModelState × Ret :=
  match out with
  | .fault => (st, Ret.pyNone)
  | .ok status vals =>
      let st₁ := { st with status := status, varValues := vals }
      match st₁.objective with
      | Option.none => (st₁, Ret.pyNone)
      | some obj =>
          ({ st₁ with objective_value := some (evalExpr obj vals) }, Ret.pyNone)

/-- Insertion into a name-sorted list (String `<`). -/
def insertStr (s : String) : List String → List String
  | [] => [s]
  | t :: ts => if s < t then s :: t :: ts else t :: insertStr s ts

/-- Sorting a list of names, as PuLP's `LpProblem.variables()` sorts its
result by variable name. -/
def sortStrs : List String → List String
  | [] => []
  | t :: ts => insertStr t (sortStrs ts)

/-- PuLP's `LpProblem.variables()`: the names occurring in the objective
or in any stored constraint, without duplicates, sorted by name.  (PuLP
deduplicates via dict update, keeping first occurrences; since the list
is then sorted by name, only the underlying set matters.) -/
def problemVariables (st : ModelState) : List String :=
  sortStrs
    (((st.objective.getD []).map Prod.fst ++
        (st.constraintsL.map (fun c => c.lhs.map Prod.fst)).flatten).dedup)

/-- One entry per problem variable; the value is `none` for Python
`None` (a variable never assigned by a solve). -/
abbrev ResultMap := List (String × Option ℚ)

/-- Method `get_results` (modelDefinition.py lines 177–195): builds
`{v.name: v.varValue for v in self.model.variables()}` and returns it,
with no inspection of the solve status.  The `except` branch (returning
`None`) fires only when `self.model` itself has been corrupted from
outside the class (the unit tests force `self.model = None`); no state
reachable through the methods triggers it, so the embedding always
returns the dict. -/
def get_results (st : ModelState) : Option ResultMap :=
  some ((problemVariables st).map (fun n => (n, dictLookup st.varValues n)))

/-- Method `run` (modelDefinition.py lines 197–219).  Each guard mirrors the
source: `if not self.define_vars(var_dict) is None: return None` (and
the same for `set_objective`) short-circuits exactly when the stage did
not return `None`; `if not self.add_constraints(constraints): return
None` short-circuits on the falsy `False`.  Then `self.solve()` (return
value ignored) and `return self.get_results()`. -/
def run (st : ModelState) (out : SolverOutcome) (vd : VarDictArg)
    (oc : ObjArg) (ca : CArg) : ModelState × Option ResultMap :=
  let d := define_vars st vd
  if d.2 ≠ Ret.pyNone then (d.1, Option.none)
  else
    let o := set_objective d.1 oc
    if o.2 ≠ Ret.pyNone then (o.1, Option.none)
    else
      let a := add_constraints o.1 ca
      if a.2 ≠ Ret.pyTrue then (a.1, Option.none)
      else
        let s := (solve a.1 out).1
        (s, get_results s)

/-- Python's `str.upper()` (ASCII case mapping, which is exact for every
logging level name). -/
def pyUpper (s : String) : String := String.mk (s.data.map Char.toUpper)

/-- The argument of `set_logging`: a Python `str`, or an `int` such as
the declared default `level=logging.INFO` (the integer 20). -/
inductive LevelArg where
  | str (s : String)
  | int (n : Int)
deriving DecidableEq, Repr

/-- Lookup `getattr(logging, name, None)` restricted to the upper-case
attributes of the `logging` module that hold integers — exactly the
level constants — composed with the `isinstance(num_level, int)` check of
line 51 (upper-case attributes holding non-integers, such as
`BASIC_FORMAT`, land in `none` either way). -/
def logGetLevel (s : String) : Option Int :=
  if s = "CRITICAL" then some 50
  else if s = "FATAL" then some 50
  else if s = "ERROR" then some 40
  else if s = "WARNING" then some 30
  else if s = "WARN" then some 30
  else if s = "INFO" then some 20
  else if s = "DEBUG" then some 10
  else if s = "NOTSET" then some 0
  else Option.none

/-- Method `set_logging` (modelDefinition.py lines 41–57).  Line 50 evaluates
`level.upper()` with no guard: on a non-string level (including the
declared default `logging.INFO = 20`) this raises `AttributeError`,
modelled as `Except.error`.  On a string, an unrecognized name leaves
the current root-logger level unchanged and returns `False`; a
recognized one is applied and `True` is returned. -/
def set_logging (cur : Int) (level : LevelArg) : Except String (Int × Ret) :=
  match level with
  | .int _ => Except.error ("AttributeError")
  | .str s =>
      match logGetLevel (pyUpper s) with
      | Option.none => Except.ok (cur, Ret.pyFalse)
      | some n => Except.ok (n, Ret.pyTrue)

/-- A state with variable `x1` registered, reached by one `define_vars`
call on a fresh model. -/
def stX1 : ModelState :=
  (define_vars initialModel (VarDictArg.dict
    [("x1", DVal.tuple [PyVal.int 0, PyVal.none, PyVal.str ("Continuous")])])).1

/-- A state with `x1` and `x2` registered. -/
def stX1X2 : ModelState :=
  (define_vars stX1 (VarDictArg.dict
    [("x2", DVal.tuple [PyVal.int 0, PyVal.none, PyVal.str ("Continuous")])])).1

/-- The state after additionally setting the objective `2*x1` on `stX1`. -/
def stObjX1 : ModelState :=
  (set_objective stX1 (ObjArg.dict [("x1", PyVal.int 2)])).1

/-- A state holding the results of a successful solve: status Optimal (1),
`x1 = 10`, objective value 20. -/
def stStale : ModelState :=
  (solve stObjX1 (SolverOutcome.ok 1 [("x1", 10)])).1

/-- Looking up the key just written by `dictInsert` yields the new value. -/
theorem dictLookup_dictInsert_self {β : Type} (d : List (String × β))
    (k : String) (v : β) : dictLookup (dictInsert d k v) k = some v := by
  induction d with
  | nil => simp [dictInsert, dictLookup]
  | cons p rest ih =>
      obtain ⟨k₁, v₁⟩ := p
      by_cases h : k₁ = k
      · simp [dictInsert, dictLookup, h]
      · simp [dictInsert, dictLookup, h, ih]

/-- The keys after `dictInsert` are the old keys plus the inserted key. -/
theorem mem_dictKeys_dictInsert {β : Type} (d : List (String × β))
    (k a : String) (v : β) :
    a ∈ dictKeys (dictInsert d k v) ↔ a ∈ dictKeys d ∨ a = k := by
  induction d with
  | nil => simp [dictInsert, dictKeys]
  | cons p rest ih =>
      obtain ⟨k₁, v₁⟩ := p
      by_cases h : k₁ = k
      · subst h
        simp [dictInsert, dictKeys]
        tauto
      · simp [dictInsert, dictKeys, h] at ih ⊢
        tauto

/-- Inserting an already-present key leaves the key list unchanged: no
second entry with the same name is ever created. -/
theorem dictKeys_dictInsert_of_mem {β : Type} (d : List (String × β))
    (k : String) (v : β) :
    k ∈ dictKeys d → dictKeys (dictInsert d k v) = dictKeys d := by
  induction d with
  | nil => intro hmem; simp [dictKeys] at hmem
  | cons p rest ih =>
      obtain ⟨k₁, v₁⟩ := p
      intro hmem
      by_cases h : k₁ = k
      · subst h
        simp [dictInsert, dictKeys]
      · have hk : k ∈ dictKeys rest := by
          rcases (by simpa [dictKeys] using hmem : k = k₁ ∨ k ∈ dictKeys rest) with h₁ | h₁
          · exact absurd h₁.symm h
          · exact h₁
        simp [dictInsert, dictKeys, h]
        exact ih hk

/-- Key uniqueness is preserved by `dictInsert`. -/
theorem nodup_dictKeys_dictInsert {β : Type} (d : List (String × β))
    (k : String) (v : β) (hnd : (dictKeys d).Nodup) :
    (dictKeys (dictInsert d k v)).Nodup := by
  induction d with
  | nil => simp [dictInsert, dictKeys]
  | cons p rest ih =>
      obtain ⟨k₁, v₁⟩ := p
      rw [show dictKeys ((k₁, v₁) :: rest) = k₁ :: dictKeys rest from rfl,
        List.nodup_cons] at hnd
      by_cases h : k₁ = k
      · subst h
        simpa [dictInsert, dictKeys, List.nodup_cons] using hnd
      · rw [show dictInsert ((k₁, v₁) :: rest) k v =
            (k₁, v₁) :: dictInsert rest k v from by simp [dictInsert, h],
          show dictKeys ((k₁, v₁) :: dictInsert rest k v) =
            k₁ :: dictKeys (dictInsert rest k v) from rfl, List.nodup_cons]
        refine ⟨?_, ih hnd.2⟩
        intro hmem
        rcases (mem_dictKeys_dictInsert rest k k₁ v).1 hmem with h₁ | h₁
        · exact hnd.1 h₁
        · exact h h₁

/-- A well-formed prefix of entries is written one by one; the first
malformed entry then aborts the loop with `False`, keeping everything
written so far. -/
theorem defineLoop_append_abort (name : String) (dv : DVal)
    (post : List (String × DVal)) (hdv : parseBounds dv = Option.none) :
    ∀ (pre : List (String × DVal)) (vars : Registry),
      (∀ p ∈ pre, (parseBounds p.2).isSome) →
      defineLoop vars (pre ++ (name, dv) :: post) =
        (applyEntries vars pre, Ret.pyFalse) := by
  intro pre
  induction pre with
  | nil =>
      intro vars _
      simp [defineLoop, hdv, applyEntries]
  | cons p rest ih =>
      intro vars hpre
      obtain ⟨n, d⟩ := p
      have hd : (parseBounds d).isSome := hpre (n, d) (by simp)
      obtain ⟨⟨l, u, c⟩, hparse⟩ := Option.isSome_iff_exists.1 hd
      have hrest : ∀ p ∈ rest, (parseBounds p.2).isSome := by
        intro q hq
        exact hpre q (by simp [hq])
      calc defineLoop vars ((n, d) :: rest ++ (name, dv) :: post)
          = defineLoop (dictInsert vars n ⟨n, l, u, c⟩)
              (rest ++ (name, dv) :: post) := by
            simp [defineLoop, hparse]
        _ = (applyEntries (dictInsert vars n ⟨n, l, u, c⟩) rest, Ret.pyFalse) :=
            ih (dictInsert vars n ⟨n, l, u, c⟩) hrest
        _ = (applyEntries vars ((n, d) :: rest), Ret.pyFalse) := by
            simp [applyEntries, hparse]

/-- The define loop returns Python `None` or `False`, nothing else. -/
theorem defineLoop_ret (entries : List (String × DVal)) :
    ∀ vars : Registry, (defineLoop vars entries).2 = Ret.pyNone ∨
      (defineLoop vars entries).2 = Ret.pyFalse := by
  induction entries with
  | nil => intro vars; left; rfl
  | cons p rest ih =>
      intro vars
      obtain ⟨n, d⟩ := p
      cases hp : parseBounds d with
      | none => right; simp [defineLoop, hp]
      | some t =>
          obtain ⟨l, u, c⟩ := t
          simpa [defineLoop, hp] using ih (dictInsert vars n ⟨n, l, u, c⟩)

/-- A batch whose items all pass validation is appended in full and the
call returns `True`. -/
theorem addLoop_all_valid (vars : Registry) :
    ∀ (items : List CItem) (cs : List Constr),
      (∀ i ∈ items, (checkItem vars i).isSome) →
      addLoop vars cs items = (appendChecked vars cs items, Ret.pyTrue) := by
  intro items
  induction items with
  | nil => intro cs _; simp [addLoop, appendChecked]
  | cons i rest ih =>
      intro cs hall
      have hi : (checkItem vars i).isSome := hall i (by simp)
      have hrest : ∀ j ∈ rest, (checkItem vars j).isSome := by
        intro j hj
        exact hall j (by simp [hj])
      cases hc : checkItem vars i with
      | none => rw [hc] at hi; simp at hi
      | some o =>
          cases o with
          | none =>
              rw [show addLoop vars cs (i :: rest) = addLoop vars cs rest from by
                  simp [addLoop, hc],
                show appendChecked vars cs (i :: rest) = appendChecked vars cs rest from by
                  simp [appendChecked, hc]]
              exact ih cs hrest
          | some c =>
              rw [show addLoop vars cs (i :: rest) = addLoop vars (cs ++ [c]) rest from by
                  simp [addLoop, hc],
                show appendChecked vars cs (i :: rest) =
                    appendChecked vars (cs ++ [c]) rest from by
                  simp [appendChecked, hc]]
              exact ih (cs ++ [c]) hrest

/-- A valid prefix is appended one constraint at a time; the first item
failing validation then aborts with `False`, keeping the constraints
appended so far. -/
theorem addLoop_append_abort (vars : Registry) (bad : CItem) (post : List CItem)
    (hbad : checkItem vars bad = Option.none) :
    ∀ (pre : List CItem) (cs : List Constr),
      (∀ i ∈ pre, (checkItem vars i).isSome) →
      addLoop vars cs (pre ++ bad :: post) =
        (appendChecked vars cs pre, Ret.pyFalse) := by
  intro pre
  induction pre with
  | nil =>
      intro cs _
      simp [addLoop, hbad, appendChecked]
  | cons i rest ih =>
      intro cs hpre
      have hi : (checkItem vars i).isSome := hpre i (by simp)
      have hrest : ∀ j ∈ rest, (checkItem vars j).isSome := by
        intro j hj
        exact hpre j (by simp [hj])
      cases hc : checkItem vars i with
      | none => rw [hc] at hi; simp at hi
      | some o =>
          cases o with
          | none =>
              rw [show addLoop vars cs (i :: rest ++ bad :: post) =
                  addLoop vars cs (rest ++ bad :: post) from by simp [addLoop, hc],
                show appendChecked vars cs (i :: rest) = appendChecked vars cs rest from by
                  simp [appendChecked, hc]]
              exact ih cs hrest
          | some c =>
              rw [show addLoop vars cs (i :: rest ++ bad :: post) =
                  addLoop vars (cs ++ [c]) (rest ++ bad :: post) from by
                  simp [addLoop, hc],
                show appendChecked vars cs (i :: rest) =
                    appendChecked vars (cs ++ [c]) rest from by
                  simp [appendChecked, hc]]
              exact ih (cs ++ [c]) hrest

/-- The constraint loop returns Python `True` or `False`, nothing else. -/
theorem addLoop_ret (vars : Registry) :
    ∀ (items : List CItem) (cs : List Constr),
      (addLoop vars cs items).2 = Ret.pyTrue ∨
        (addLoop vars cs items).2 = Ret.pyFalse := by
  intro items
  induction items with
  | nil => intro cs; left; rfl
  | cons i rest ih =>
      intro cs
      cases hc : checkItem vars i with
      | none => right; simp [addLoop, hc]
      | some o =>
          cases o with
          | none => simpa [addLoop, hc] using ih cs
          | some c => simpa [addLoop, hc] using ih (cs ++ [c])

/-- Whatever branch of the sense dispatch built the constraint, its
stored right-hand side is the numeric value of the rhs argument. -/
theorem mkConstr_rhs (e : List (String × PyVal)) (s r : PyVal) (c : Constr)
    (h : mkConstr e s r = some c) : c.rhs = pyToRat r := by
  unfold mkConstr at h
  split at h
  · cases h; rfl
  · split at h
    · cases h; rfl
    · split at h
      · cases h; rfl
      · cases h

/-- C1, counterexample.  The batch `{"a": (0, None, "Continuous"),
"b": None}` contains a malformed entry, and `define_vars` on a fresh
model does report `False` — but the registry after the call is not the
registry before the call: the valid entry `"a"`, processed before the
malformed one, has already been added.  This refutes the claimed
atomicity of `defineVariables`. -/
theorem define_vars_not_atomic :
    (define_vars initialModel (VarDictArg.dict
        [("a", DVal.tuple [PyVal.int 0, PyVal.none, PyVal.str ("Continuous")]),
         ("b", DVal.other PyVal.none)])).2 = Ret.pyFalse ∧
    (define_vars initialModel (VarDictArg.dict
        [("a", DVal.tuple [PyVal.int 0, PyVal.none, PyVal.str ("Continuous")]),
         ("b", DVal.other PyVal.none)])).1.varsDict ≠ initialModel.varsDict := by
  constructor
  · rfl
  · decide

/-- C1, amended: for every batch containing a malformed entry (value not
a tuple of exactly three elements), `define_vars` reports Failure, the
entries strictly before the first malformed one have been added to the
registry, and no entry from the first malformed one onward is added —
mutation stops exactly at the malformed entry rather than being rolled
back. -/
theorem define_vars_stops_at_first_invalid
    (st : ModelState) (pre : List (String × DVal)) (name : String) (dv : DVal)
    (post : List (String × DVal))
    (hpre : ∀ p ∈ pre, (parseBounds p.2).isSome)
    (hdv : parseBounds dv = Option.none) :
    define_vars st (VarDictArg.dict (pre ++ (name, dv) :: post)) =
      ({ st with varsDict := applyEntries st.varsDict pre }, Ret.pyFalse) := by
  simp [define_vars, defineLoop_append_abort name dv post hdv pre st.varsDict hpre]

/-- Witness for C1's amended theorem at the counterexample batch. -/
theorem define_vars_stops_at_first_invalid_witness :
    define_vars initialModel (VarDictArg.dict
        [("a", DVal.tuple [PyVal.int 0, PyVal.none, PyVal.str ("Continuous")]),
         ("b", DVal.other PyVal.none)]) =
      ({ initialModel with varsDict := (applyEntries initialModel.varsDict
          [("a", DVal.tuple [PyVal.int 0, PyVal.none, PyVal.str ("Continuous")])]) },
        Ret.pyFalse) :=
  define_vars_stops_at_first_invalid initialModel
    [("a", DVal.tuple [PyVal.int 0, PyVal.none, PyVal.str ("Continuous")])]
    ("b") (DVal.other PyVal.none) [] (by decide) (by decide)

/-- C3, counterexample.  On a fresh model — no `solve` ever performed,
status `NotSolved` (0), not `Optimal` (1) — `get_results` returns the
empty-but-present mapping `{}`, not the no-result indicator `None`.  The
claimed equivalence "mapping iff last solve was Optimal" is false. -/
theorem get_results_fresh_empty_mapping :
    get_results initialModel = some [] ∧ initialModel.status = 0 ∧
      initialModel.status ≠ 1 := by
  refine ⟨rfl, rfl, by decide⟩

/-- C3, amended: `get_results` never consults the solve status at all.
It returns a present mapping (over the problem's variables, with the
`None` placeholder for values never assigned by a solve) in every state
reachable through the methods; changing the status field changes
nothing.  The `None` branch exists only for externally corrupted
instances. -/
theorem get_results_ignores_status (st : ModelState) (s : Int) :
    get_results st ≠ Option.none ∧
      get_results { st with status := s } = get_results st := by
  constructor
  · simp [get_results]
  · rfl

/-- C4, counterexample.  `stStale` holds the results of an earlier
successful solve (status Optimal, objective value 20).  When the adapter
then raises, `solve` catches the fault — but it does not set any
failure status and does not leave the objective value unset: the state
is completely unchanged, still reporting status Optimal (1) and
objective value 20 from the stale solve.  No `SolverFailure` status
exists anywhere in the code. -/
theorem solve_fault_keeps_stale_results :
    solve stStale SolverOutcome.fault = (stStale, Ret.pyNone) ∧
    stStale.objective_value = some 20 ∧
    stStale.status = 1 := by
  refine ⟨rfl, ?_, rfl⟩
  show some ((0 : ℚ) + 2 * 10) = some 20
  norm_num

/-- C4, amended: when the adapter raises during `solve`, the fault is
caught and not propagated (the method returns normally, with Python
`None`), and the model state is left entirely unchanged — status,
objective value and solution values all keep their prior contents; in
particular no `SolverFailure` (or any other) status is recorded. -/
theorem solve_fault_leaves_state_unchanged (st : ModelState) :
    solve st SolverOutcome.fault = (st, Ret.pyNone) := rfl

/-- C9.  `set_logging` evaluates `level.upper()` unguarded, so the
method's own documented default call — `level=logging.INFO`, the integer
20, with the docstring promising a `bool` result — raises
`AttributeError` instead of reporting Failure.  String levels behave as
claimed: a recognized severity is applied with `True`, an unrecognized
one leaves the level unchanged with `False`. -/
theorem set_logging_nonstring_raises :
    set_logging 20 (LevelArg.int 20) = Except.error ("AttributeError") ∧
    set_logging 20 (LevelArg.str ("DEBUG")) = Except.ok (10, Ret.pyTrue) ∧
    set_logging 20 (LevelArg.str ("INVALID")) = Except.ok (20, Ret.pyFalse) :=
  ⟨rfl, rfl, rfl⟩

/-- C2, counterexample.  First conjunct pair: the batch
`[({x1: 1}, LE, 10), not-a-tuple]` has an invalid second item and
`add_constraints` does report `False` — but the valid first constraint
has already been appended, so the constraint list is not unchanged.
Last conjunct pair: a constraint with an *empty* expression mapping,
which the claim counts as a validation failure, is in fact accepted and
appended with result `True`.  Both refute the claimed batch validation
before any mutation. -/
theorem add_constraints_not_atomic :
    (add_constraints stX1 (CArg.list
        [CItem.tuple (CExprArg.dict [("x1", PyVal.int 1)]) (PyVal.int (-1))
            (PyVal.int 10),
         CItem.notTuple3])).2 = Ret.pyFalse ∧
    (add_constraints stX1 (CArg.list
        [CItem.tuple (CExprArg.dict [("x1", PyVal.int 1)]) (PyVal.int (-1))
            (PyVal.int 10),
         CItem.notTuple3])).1.constraintsL ≠ stX1.constraintsL ∧
    (add_constraints stX1 (CArg.list
        [CItem.tuple (CExprArg.dict []) (PyVal.int (-1)) (PyVal.int 10)])).2 =
      Ret.pyTrue ∧
    (add_constraints stX1 (CArg.list
        [CItem.tuple (CExprArg.dict []) (PyVal.int (-1)) (PyVal.int 10)])).1.constraintsL =
      [⟨[], -1, 10⟩] := by
  refine ⟨rfl, ?_, rfl, ?_⟩
  · show [(⟨[("x1", PyVal.int 1)], -1, ((10 : Int) : ℚ)⟩ : Constr)] ≠ []
    simp
  · show [(⟨[], -1, ((10 : Int) : ℚ)⟩ : Constr)] = [⟨[], -1, 10⟩]
    norm_num

/-- C2, amended: validation and mutation are interleaved per item.  For
every batch containing an item that fails the code's checks (wrong
tuple arity, non-mapping expression, unregistered variable, operator
not equal to one of the three PuLP sense codes, non-numeric rhs — an
empty expression mapping is *not* rejected), the call reports Failure,
the constraints built from the items strictly before the first failing
one have been appended, and nothing from the failing item onward is. -/
theorem add_constraints_stops_at_first_invalid
    (st : ModelState) (pre : List CItem) (bad : CItem) (post : List CItem)
    (hpre : ∀ i ∈ pre, (checkItem st.varsDict i).isSome)
    (hbad : checkItem st.varsDict bad = Option.none) :
    add_constraints st (CArg.list (pre ++ bad :: post)) =
      ({ st with constraintsL := (appendChecked st.varsDict st.constraintsL pre) },
        Ret.pyFalse) := by
  simp [add_constraints,
    addLoop_append_abort st.varsDict bad post hbad pre st.constraintsL hpre]

/-- Witness for C2's amended theorem at the counterexample batch. -/
theorem add_constraints_stops_at_first_invalid_witness :
    add_constraints stX1 (CArg.list
        [CItem.tuple (CExprArg.dict [("x1", PyVal.int 1)]) (PyVal.int (-1))
            (PyVal.int 10),
         CItem.notTuple3]) =
      ({ stX1 with constraintsL := (appendChecked stX1.varsDict stX1.constraintsL
          [CItem.tuple (CExprArg.dict [("x1", PyVal.int 1)]) (PyVal.int (-1))
            (PyVal.int 10)]) }, Ret.pyFalse) :=
  add_constraints_stops_at_first_invalid stX1
    [CItem.tuple (CExprArg.dict [("x1", PyVal.int 1)]) (PyVal.int (-1))
        (PyVal.int 10)]
    CItem.notTuple3 [] (by decide) (by decide)

/-- C5, confirmed.  For every model in which `x1` and `x2` are
registered, calling `set_objective {x1: 1}` and then
`set_objective {x1: 2, x2: 3}` leaves the stored objective equal to the
second call's coefficient mapping — PuLP's `+=` on a problem overwrites
the objective — whose value is `2*x1 + 3*x2` under every assignment,
and which differs from the accumulated sum `3*x1 + 3*x2`. -/
theorem set_objective_replaces (st : ModelState)
    (h1 : dictContains st.varsDict ("x1") = true)
    (h2 : dictContains st.varsDict ("x2") = true) :
    ((set_objective (set_objective st (ObjArg.dict [("x1", PyVal.int 1)])).1
        (ObjArg.dict [("x1", PyVal.int 2), ("x2", PyVal.int 3)])).1).objective =
      some [("x1", PyVal.int 2), ("x2", PyVal.int 3)] ∧
    (∀ vals : List (String × ℚ),
      evalExpr [("x1", PyVal.int 2), ("x2", PyVal.int 3)] vals =
        2 * lookupD vals ("x1") 0 + 3 * lookupD vals ("x2") 0) ∧
    evalExpr [("x1", PyVal.int 2), ("x2", PyVal.int 3)] [("x1", 1), ("x2", 1)] ≠
      evalExpr [("x1", PyVal.int 3), ("x2", PyVal.int 3)] [("x1", 1), ("x2", 1)] := by
  have hst1 : set_objective st (ObjArg.dict [("x1", PyVal.int 1)]) =
      ({ st with objective := some [("x1", PyVal.int 1)] }, Ret.pyNone) := by
    simp [set_objective, h1]
  refine ⟨?_, ?_, ?_⟩
  · rw [hst1]
    simp [set_objective, h1, h2]
  · intro vals
    simp [evalExpr, lookupD, pyToRat]
  · show (0 : ℚ) + 2 * 1 + 3 * 1 ≠ 0 + 3 * 1 + 3 * 1
    norm_num

/-- Witness for C5 on a concrete registry holding `x1` and `x2`. -/
theorem set_objective_replaces_witness :
    ((set_objective (set_objective stX1X2 (ObjArg.dict [("x1", PyVal.int 1)])).1
        (ObjArg.dict [("x1", PyVal.int 2), ("x2", PyVal.int 3)])).1).objective =
      some [("x1", PyVal.int 2), ("x2", PyVal.int 3)] ∧
    (∀ vals : List (String × ℚ),
      evalExpr [("x1", PyVal.int 2), ("x2", PyVal.int 3)] vals =
        2 * lookupD vals ("x1") 0 + 3 * lookupD vals ("x2") 0) ∧
    evalExpr [("x1", PyVal.int 2), ("x2", PyVal.int 3)] [("x1", 1), ("x2", 1)] ≠
      evalExpr [("x1", PyVal.int 3), ("x2", PyVal.int 3)] [("x1", 1), ("x2", 1)] :=
  set_objective_replaces stX1X2 (by decide) (by decide)

/-- C7, counterexample.  A second `define_vars` call that re-uses the
name `x` silently replaces the variable: its bounds and category change
from `(0, 1, Continuous)` to `(5, 10, Integer)`.  Variables are
therefore not immutable within the model's lifetime. -/
theorem define_vars_redefines_variable :
    let st₁ := (define_vars initialModel (VarDictArg.dict
        [("x", DVal.tuple [PyVal.int 0, PyVal.int 1, PyVal.str ("Continuous")])])).1
    let st₂ := (define_vars st₁ (VarDictArg.dict
        [("x", DVal.tuple [PyVal.int 5, PyVal.int 10, PyVal.str ("Integer")])])).1
    dictLookup st₂.varsDict ("x") =
        some ⟨"x", PyVal.int 5, PyVal.int 10, PyVal.str ("Integer")⟩ ∧
    dictLookup st₁.varsDict ("x") =
        some ⟨"x", PyVal.int 0, PyVal.int 1, PyVal.str ("Continuous")⟩ ∧
    (⟨"x", PyVal.int 5, PyVal.int 10, PyVal.str ("Integer")⟩ : LpVar) ≠
        ⟨"x", PyVal.int 0, PyVal.int 1, PyVal.str ("Continuous")⟩ := by
  refine ⟨rfl, rfl, by decide⟩

/-- C7, amended: variable names stay unique — the registry is a dict
keyed by name, redefinition overwrites in place and never creates a
second entry — but a variable is not immutable: a later `define_vars`
call with the same name replaces its bounds and category with the new
triple. -/
theorem define_vars_unique_names_overwrite (st : ModelState) (name : String)
    (l u c l₂ u₂ c₂ : PyVal) (hnd : (dictKeys st.varsDict).Nodup) :
    let st₁ := (define_vars st (VarDictArg.dict
        [(name, DVal.tuple [l, u, c])])).1
    let st₂ := (define_vars st₁ (VarDictArg.dict
        [(name, DVal.tuple [l₂, u₂, c₂])])).1
    dictLookup st₂.varsDict name = some ⟨name, l₂, u₂, c₂⟩ ∧
    (dictKeys st₂.varsDict).Nodup ∧
    dictKeys st₂.varsDict = dictKeys st₁.varsDict := by
  intro st₁ st₂
  have hred : st₂.varsDict =
      dictInsert (dictInsert st.varsDict name ⟨name, l, u, c⟩) name
        ⟨name, l₂, u₂, c₂⟩ := rfl
  have hred₁ : st₁.varsDict = dictInsert st.varsDict name ⟨name, l, u, c⟩ := rfl
  rw [hred, hred₁]
  refine ⟨dictLookup_dictInsert_self _ _ _, ?_, ?_⟩
  · exact nodup_dictKeys_dictInsert _ _ _ (nodup_dictKeys_dictInsert _ _ _ hnd)
  · exact dictKeys_dictInsert_of_mem _ _ _
      ((mem_dictKeys_dictInsert st.varsDict name name _).2 (Or.inr rfl))

/-- Witness for C7's amended theorem on a fresh model. -/
theorem define_vars_unique_names_overwrite_witness :
    let st₁ := (define_vars initialModel (VarDictArg.dict
        [("x", DVal.tuple [PyVal.int 0, PyVal.int 1, PyVal.str ("Continuous")])])).1
    let st₂ := (define_vars st₁ (VarDictArg.dict
        [("x", DVal.tuple [PyVal.int 5, PyVal.int 10, PyVal.str ("Integer")])])).1
    dictLookup st₂.varsDict ("x") =
        some ⟨"x", PyVal.int 5, PyVal.int 10, PyVal.str ("Integer")⟩ ∧
    (dictKeys st₂.varsDict).Nodup ∧
    dictKeys st₂.varsDict = dictKeys st₁.varsDict :=
  define_vars_unique_names_overwrite initialModel ("x")
    (PyVal.int 0) (PyVal.int 1) (PyVal.str ("Continuous"))
    (PyVal.int 5) (PyVal.int 10) (PyVal.str ("Integer")) (by decide)

/-- C6, confirmed.  `run` executes `define_vars`, `set_objective`,
`add_constraints`, `solve`, `get_results` in that order.  If a stage
reports Failure (`define_vars`/`set_objective` returning something
other than Python `None`, `add_constraints` returning a falsy value),
`run` returns `None` immediately with a state showing no effect of any
later stage; when every stage succeeds, it returns exactly
`get_results` of the post-solve state — the very value a subsequent
`get_results()` call would return. -/
theorem run_stage_order (st : ModelState) (out : SolverOutcome)
    (vd : VarDictArg) (oc : ObjArg) (ca : CArg) :
    ((define_vars st vd).2 ≠ Ret.pyNone →
        run st out vd oc ca = ((define_vars st vd).1, Option.none)) ∧
    ((define_vars st vd).2 = Ret.pyNone →
      (set_objective (define_vars st vd).1 oc).2 ≠ Ret.pyNone →
        run st out vd oc ca =
          ((set_objective (define_vars st vd).1 oc).1, Option.none)) ∧
    ((define_vars st vd).2 = Ret.pyNone →
      (set_objective (define_vars st vd).1 oc).2 = Ret.pyNone →
      (add_constraints (set_objective (define_vars st vd).1 oc).1 ca).2 ≠
          Ret.pyTrue →
        run st out vd oc ca =
          ((add_constraints (set_objective (define_vars st vd).1 oc).1 ca).1,
            Option.none)) ∧
    ((define_vars st vd).2 = Ret.pyNone →
      (set_objective (define_vars st vd).1 oc).2 = Ret.pyNone →
      (add_constraints (set_objective (define_vars st vd).1 oc).1 ca).2 =
          Ret.pyTrue →
        run st out vd oc ca =
          ((solve (add_constraints (set_objective (define_vars st vd).1 oc).1
              ca).1 out).1,
            get_results (solve (add_constraints
              (set_objective (define_vars st vd).1 oc).1 ca).1 out).1)) := by
  refine ⟨?_, ?_, ?_, ?_⟩
  · intro h1
    simp [run, h1]
  · intro h1 h2
    simp [run, h1, h2]
  · intro h1 h2 h3
    simp [run, h1, h2, h3]
  · intro h1 h2 h3
    simp [run, h1, h2, h3]

/-- Witness for C6: a failing first stage short-circuits, and a fully
successful pipeline returns `get_results` of the post-solve state. -/
theorem run_stage_order_witness :
    run initialModel (SolverOutcome.ok 1 [("x1", 7)]) VarDictArg.notDict
        (ObjArg.dict [("x1", PyVal.int 1)]) (CArg.list []) =
      ((define_vars initialModel VarDictArg.notDict).1, Option.none) ∧
    run initialModel (SolverOutcome.ok 1 [("x1", 7)])
        (VarDictArg.dict
          [("x1", DVal.tuple [PyVal.int 0, PyVal.none, PyVal.str ("Continuous")])])
        (ObjArg.dict [("x1", PyVal.int 1)]) (CArg.list []) =
      ((solve (add_constraints (set_objective (define_vars initialModel
            (VarDictArg.dict [("x1",
              DVal.tuple [PyVal.int 0, PyVal.none, PyVal.str ("Continuous")])])).1
            (ObjArg.dict [("x1", PyVal.int 1)])).1 (CArg.list [])).1
          (SolverOutcome.ok 1 [("x1", 7)])).1,
        get_results (solve (add_constraints (set_objective (define_vars initialModel
            (VarDictArg.dict [("x1",
              DVal.tuple [PyVal.int 0, PyVal.none, PyVal.str ("Continuous")])])).1
            (ObjArg.dict [("x1", PyVal.int 1)])).1 (CArg.list [])).1
          (SolverOutcome.ok 1 [("x1", 7)])).1) := by
  constructor
  · exact (run_stage_order initialModel (SolverOutcome.ok 1 [("x1", 7)])
      VarDictArg.notDict (ObjArg.dict [("x1", PyVal.int 1)])
      (CArg.list [])).1 (by decide)
  · exact (run_stage_order initialModel (SolverOutcome.ok 1 [("x1", 7)])
      (VarDictArg.dict
        [("x1", DVal.tuple [PyVal.int 0, PyVal.none, PyVal.str ("Continuous")])])
      (ObjArg.dict [("x1", PyVal.int 1)]) (CArg.list [])).2.2.2 rfl rfl rfl

/-- C8, counterexample.  The return value of `solve` is Python `None`
both when the adapter raises and when it succeeds: `solve` communicates
neither success nor failure through its return value, so not every
public operation returns a Success/Failure indicator distinguishable by
its return value. -/
theorem solve_return_value_uninformative :
    (solve stObjX1 SolverOutcome.fault).2 =
      (solve stObjX1 (SolverOutcome.ok 1 [("x1", 10)])).2 ∧
    (solve stObjX1 SolverOutcome.fault).2 = Ret.pyNone :=
  ⟨rfl, rfl⟩

/-- C8, amended: the validation-bearing operations do report their
outcome by return value and never raise for ordinary validation errors —
`define_vars` and `set_objective` return Python `None` on success and
`False` on failure, `add_constraints` returns `True` or `False`,
`set_logging` on a string level returns `True` or `False`, and
`get_results` always returns a present mapping — but `solve` returns
`None` in every case, carrying no Success/Failure indication at all. -/
theorem explicit_return_values :
    (∀ (st : ModelState) (out : SolverOutcome), (solve st out).2 = Ret.pyNone) ∧
    (∀ (st : ModelState) (vd : VarDictArg), (define_vars st vd).2 = Ret.pyNone ∨
      (define_vars st vd).2 = Ret.pyFalse) ∧
    (∀ (st : ModelState) (oc : ObjArg), (set_objective st oc).2 = Ret.pyNone ∨
      (set_objective st oc).2 = Ret.pyFalse) ∧
    (∀ (st : ModelState) (ca : CArg), (add_constraints st ca).2 = Ret.pyTrue ∨
      (add_constraints st ca).2 = Ret.pyFalse) ∧
    (∀ (cur : Int) (s : String),
      set_logging cur (LevelArg.str s) = Except.ok (cur, Ret.pyFalse) ∨
      ∃ n : Int, set_logging cur (LevelArg.str s) = Except.ok (n, Ret.pyTrue)) ∧
    (∀ st : ModelState, (get_results st).isSome = true) := by
  refine ⟨?_, ?_, ?_, ?_, ?_, ?_⟩
  · intro st out
    cases out with
    | fault => rfl
    | ok status vals =>
        cases h : st.objective with
        | none => simp [solve, h]
        | some obj => simp [solve, h]
  · intro st vd
    cases vd with
    | notDict => right; rfl
    | dict entries => exact defineLoop_ret entries st.varsDict
  · intro st oc
    cases oc with
    | notDict => right; rfl
    | dict coeffs =>
        by_cases h : coeffs.all (fun p => dictContains st.varsDict p.1)
        · left; simp [set_objective, h]
        · right; simp [set_objective, h]
  · intro st ca
    cases ca with
    | notList => right; rfl
    | list items => exact addLoop_ret st.varsDict items st.constraintsL
  · intro cur s
    cases h : logGetLevel (pyUpper s) with
    | none => left; simp [set_logging, h]
    | some n => right; exact ⟨n, by simp [set_logging, h]⟩
  · intro st
    rfl

/-- C10, confirmed.  Python's `bool` is a subclass of `int`, so a
`True`/`False` right-hand side passes the `isinstance(rhs, (int, float))`
check; an otherwise valid batch containing such a constraint (at any
position) is accepted in full, and the stored constraint's right-hand
side is the number 1 for `True` and 0 for `False`. -/
theorem add_constraints_bool_rhs
    (st : ModelState) (pre post : List CItem) (entries : List (String × PyVal))
    (sense : PyVal) (b : Bool)
    (hpre : ∀ i ∈ pre, (checkItem st.varsDict i).isSome)
    (hpost : ∀ i ∈ post, (checkItem st.varsDict i).isSome)
    (hvars : entries.all (fun p => dictContains st.varsDict p.1) = true)
    (hsense : senseMember sense = true) :
    isNumeric (PyVal.bool b) = true ∧
    add_constraints st (CArg.list
        (pre ++ CItem.tuple (CExprArg.dict entries) sense (PyVal.bool b) :: post)) =
      ({ st with constraintsL := (appendChecked st.varsDict st.constraintsL
          (pre ++ CItem.tuple (CExprArg.dict entries) sense (PyVal.bool b) :: post)) },
        Ret.pyTrue) ∧
    ∀ c : Constr, mkConstr entries sense (PyVal.bool b) = some c →
      c.rhs = (if b then 1 else 0) := by
  have hmid : (checkItem st.varsDict
      (CItem.tuple (CExprArg.dict entries) sense (PyVal.bool b))).isSome := by
    simp [checkItem, hvars, hsense, isNumeric]
  refine ⟨rfl, ?_, ?_⟩
  · have hall : ∀ i ∈ pre ++ CItem.tuple (CExprArg.dict entries) sense
        (PyVal.bool b) :: post, (checkItem st.varsDict i).isSome := by
      intro i hi
      rcases List.mem_append.1 hi with h | h
      · exact hpre i h
      · rcases List.mem_cons.1 h with h | h
        · rw [h]; exact hmid
        · exact hpost i h
    simp [add_constraints, addLoop_all_valid st.varsDict _ st.constraintsL hall]
  · intro c hc
    rw [mkConstr_rhs entries sense (PyVal.bool b) c hc]
    rfl

/-- Witness for C10: a single-constraint batch `[({x1: 1}, LE, True)]`
is accepted and stored with right-hand side 1. -/
theorem add_constraints_bool_rhs_witness :
    isNumeric (PyVal.bool true) = true ∧
    add_constraints stX1 (CArg.list
        [CItem.tuple (CExprArg.dict [("x1", PyVal.int 1)]) (PyVal.int (-1))
          (PyVal.bool true)]) =
      ({ stX1 with constraintsL := (appendChecked stX1.varsDict stX1.constraintsL
          [CItem.tuple (CExprArg.dict [("x1", PyVal.int 1)]) (PyVal.int (-1))
            (PyVal.bool true)]) }, Ret.pyTrue) ∧
    ∀ c : Constr, mkConstr [("x1", PyVal.int 1)] (PyVal.int (-1))
        (PyVal.bool true) = some c → c.rhs = (if true then 1 else 0) :=
  add_constraints_bool_rhs stX1 [] [] [("x1", PyVal.int 1)] (PyVal.int (-1)) true
    (by simp) (by simp) (by decide) (by decide)

end RuleBasedModel
